import Mathlib

/-!
Verification development for the DuckyLighting repository.

The definitions below are a shallow embedding of the Python sources:
  * `src/backend/utils.py`          — `Color`, `Mask`, `Gradient`, `scale_map`
  * `src/keyboards/hid/hidinterfacing.py` — `Packet`, `PacketStream`, `PacketSender`
  * `src/keyboards/ducky.py`        — `DuckyOne2RGBColorManager.packets_to_send`
  * `src/lighting/colorfunctions.py` — `ReactiveFunction`
  * `src/keyboards/rgbkeyboard.py`  — `RGBKeyboard._remove_hooks` / `remove_layer`

Python machine-level conventions used throughout:
  * Python `int` is unbounded, so integer channels are `ℤ` and byte values `Nat`.
  * Python `float` inputs are restricted to `ℚ` (the claims quantify over exact
    values such as `decay/2`, where rational arithmetic is exact).
  * Fallible Python code (exceptions) is embedded with `Except PyErr`.
-/

namespace DuckyLighting

/-- Python runtime errors raised by the embedded code. -/
inductive PyErr where
  | typeError
  | valueError
  | assertionError
  | indexError
  deriving DecidableEq

deriving instance DecidableEq for Except

/-- Python `int(q)` applied to a rational value: truncation toward zero. -/
def pyInt (q : ℚ) : ℤ := if 0 ≤ q then q.floor else q.ceil

/-- Python `round(q)` on a rational value: round half to even. -/
def pyRound (q : ℚ) : ℤ :=
  let f := q.floor
  let r := q - (f : ℚ)
  if r < 1/2 then f
  else if 1/2 < r then f + 1
  else if f % 2 = 0 then f else f + 1

/-! ## Color (src/backend/utils.py, class `Color`) -/

/-- `Color`: three integer channels (`self.r`, `self.g`, `self.b`). -/
structure Color where
  r : ℤ
  g : ℤ
  b : ℤ
  deriving DecidableEq

/-- `Color.clamp`: clamps every component onto `[0, 255]`
(`self.r = min(max(self.r, 0), 255)` and likewise for `g`, `b`). -/
def Color.clamp (c : Color) : Color :=
  ⟨min (max c.r 0) 255, min (max c.g 0) 255, min (max c.b 0) 255⟩

/-- `Color.__init__`: stores the three channels, then calls `self.clamp()`. -/
def Color.build (r g b : ℤ) : Color := Color.clamp ⟨r, g, b⟩

/-- `Color.set_color_values`: overwrites the three channels, then clamps. -/
def Color.setColorValues (_c : Color) (r g b : ℤ) : Color := Color.clamp ⟨r, g, b⟩

/-- `Color.__add__`, `Color` operand: by-part addition through the constructor. -/
def Color.add (c o : Color) : Color := Color.build (c.r + o.r) (c.g + o.g) (c.b + o.b)

/-- `Color.__add__`, `int` operand. -/
def Color.addInt (c : Color) (o : ℤ) : Color := Color.build (c.r + o) (c.g + o) (c.b + o)

/-- `Color.__sub__`, `Color` operand. -/
def Color.sub (c o : Color) : Color := Color.build (c.r - o.r) (c.g - o.g) (c.b - o.b)

/-- `Color.__sub__`, `int` operand. -/
def Color.subInt (c : Color) (o : ℤ) : Color := Color.build (c.r - o) (c.g - o) (c.b - o)

/-- `Color.__rsub__`: `Color(other - self.r, other - self.g, other - self.b)`. -/
def Color.rsub (o : ℤ) (c : Color) : Color := Color.build (o - c.r) (o - c.g) (o - c.b)

/-- `Color.__neg__` (also `Color.__invert__`): `255 - self`, i.e. `__rsub__(255)`. -/
def Color.neg (c : Color) : Color := Color.rsub 255 c

/-- `Color.__mul__` with a numeric scalar: `Color(int(self.r * other), ...)`. -/
def Color.mulScalar (c : Color) (o : ℚ) : Color :=
  Color.build (pyInt ((c.r : ℚ) * o)) (pyInt ((c.g : ℚ) * o)) (pyInt ((c.b : ℚ) * o))

/-- `Color.scale`: `self.r = int(round(self.r * scale_value))` …, then `self.clamp()`. -/
def Color.scale (c : Color) (s : ℚ) : Color :=
  Color.clamp ⟨pyRound ((c.r : ℚ) * s), pyRound ((c.g : ℚ) * s), pyRound ((c.b : ℚ) * s)⟩

/-- `interpolate_single` from src/backend/utils.py. -/
def interpolate_single (v0 v1 t : ℚ) : ℚ := (1 - t) * v0 + t * v1

/-- `Color.interpolate`, RGB branch:
`Color(int(interpolate_single(start.r, end.r, t)), ...)`.
(The HSV branch routes through `colorsys` and `Color.from_hsv`, which also
builds its result through the clamping constructor.) -/
def Color.interpolate (s e : Color) (t : ℚ) : Color :=
  Color.build (pyInt (interpolate_single (s.r : ℚ) (e.r : ℚ) t))
    (pyInt (interpolate_single (s.g : ℚ) (e.g : ℚ) t))
    (pyInt (interpolate_single (s.b : ℚ) (e.b : ℚ) t))

/-- The observable range invariant for `Color`: every channel lies in `[0, 255]`. -/
def Color.inRange (c : Color) : Prop :=
  0 ≤ c.r ∧ c.r ≤ 255 ∧ 0 ≤ c.g ∧ c.g ≤ 255 ∧ 0 ≤ c.b ∧ c.b ≤ 255

/-- `scale_map` from src/backend/utils.py (the Arduino `map` function). -/
def scale_map (x in_min in_max out_min out_max : ℚ) : ℚ :=
  (x - in_min) * (out_max - out_min) / (in_max - in_min) + out_min

/-! ## Mask (src/backend/utils.py, class `Mask`) -/

/-- Python `list.remove(k)`: removes the first occurrence of `k`.
In `Mask.__sub__` every call is guarded by `if key in out`, so the
`ValueError` branch of `list.remove` is unreachable and is not modelled. -/
def pyListRemove (l : List String) (k : String) : List String := l.erase k

/-- The loop body of `Mask.__sub__`: `if key in out: out.remove(key)`. -/
def maskSubStep (out : List String) (key : String) : List String :=
  if key ∈ out then pyListRemove out key else out

/-- `Mask.__sub__` when the two operands are backed by *distinct* list objects:
`out = self.value; for key in other: if key in out: out.remove(key)`.
(`out` aliases `self.value`; the resulting list is also the subtracted
member's new backing list — see `maskSubOp`.) -/
def maskSub (a b : List String) : List String := b.foldl maskSubStep a

/-- `Mask.__sub__` when `other is self`: then `out` and `other` are the *same*
list object, so the `for key in other` loop iterates (by index) over the very
list it is removing from.  Faithful to CPython's list-iterator semantics: at
step `i` the iterator reads `out[i]` from the current state of the list and
stops as soon as `i ≥ len(out)`.  The `fuel` argument only bounds the number
of iterations; since every iteration increases `i` by one and never lengthens
the list, `out.length` iterations always suffice, so the fuel-exhausted branch
is unreachable when called through `maskSubSelf`. -/
def maskSubSelfLoop : Nat → List String → Nat → List String
  | 0, out, _ => out
  | fuel + 1, out, i =>
    if i < out.length then
      maskSubSelfLoop fuel
        (if out.getD i "" ∈ out then pyListRemove out (out.getD i "") else out) (i + 1)
    else out

/-- `Mask.__sub__` with `other is self` (e.g. `Mask.WASD - Mask.WASD`). -/
def maskSubSelf (a : List String) : List String := maskSubSelfLoop a.length a 0

/-- The elements at odd (0-based) positions of a list; used to characterise
what self-subtraction actually leaves behind. -/
def oddIndexed : List String → List String
  | [] => []
  | [_] => []
  | _ :: y :: rest => y :: oddIndexed rest

/-- The `"'"` key name (apostrophe key) from `key_grid_by_row`. -/
def quoteKey : String := String.mk [Char.ofNat 39]

/-- `key_grid_by_row` from src/backend/utils.py (rows, `(0,0)` top left). -/
def key_grid_by_row : List (List (Option String)) :=
  [[some "Escape", none, some "F1", some "F2", some "F3", some "F4", some "F5", some "F6",
    some "F7", some "F8", some "F9", some "F10", some "F11", some "F12", some "PrintScreen",
    some "ScrollLock", some "Pause", some "Calc", some "Mute", some "VolumeDown", some "VolumeUp"],
   [some "SectionSign", some "1", some "2", some "3", some "4", some "5", some "6", some "7",
    some "8", some "9", some "0", some "-", some "=", some "Backspace", some "Insert",
    some "Home", some "PageUp", some "NumLock", some "Divide", some "Multiply", some "Subtract"],
   [some "Tab", some "Q", some "W", some "E", some "R", some "T", some "Y", some "U", some "I",
    some "O", some "P", some "[", some "]", some "BSlash", some "Delete", some "End",
    some "PageDown", some "N7", some "N8", some "N9", some "Add"],
   [some "CapsLock", some "A", some "S", some "D", some "F", some "G", some "H", some "J",
    some "K", some "L", some "Semicolon", some quoteKey, none, some "Enter", none, none, none,
    some "N4", some "N5", some "N6", none],
   [some "LeftShift", none, some "Z", some "X", some "C", some "V", some "B", some "N", some "M",
    some ",", some ".", some "FSlash", none, some "RightShift", none, some "UpArrow", none,
    some "N1", some "N2", some "N3", none],
   [some "LeftControl", some "LeftWindows", some "LeftAlt", none, none, none, some "Space",
    none, none, none, some "RightAlt", some "RightWindows", some "Function", some "RightControl",
    some "LeftArrow", some "DownArrow", some "RightArrow", some "N0", none, some "NDelete",
    some "RightEnter"]]

/-- `flatten` from src/backend/utils.py. -/
def flattenGrid (grid : List (List (Option String))) : List (Option String) := grid.flatten

/-- `Mask.ALL = list(filter(lambda x: x is not None, flatten(key_grid_by_row)))`. -/
def allKeys : List String := (flattenGrid key_grid_by_row).filterMap id

/-- `Mask.WASD`. -/
def wasdKeys : List String := ["W", "A", "S", "D"]

/-- `Mask.FUNCTION`. -/
def functionKeys : List String :=
  ["F1", "F2", "F3", "F4", "F5", "F6", "F7", "F8", "F9", "F10", "F11", "F12"]

/-- `Mask.NUMPAD`. -/
def numpadKeys : List String :=
  ["N0", "N1", "N2", "N3", "N4", "N5", "N6", "N7", "N8", "N9", "Divide", "Multiply",
   "NumLock", "NDelete", "Subtract", "Add", "RightEnter"]

/-- The four members of the `Mask` enum. -/
inductive MaskId where
  | ALL
  | WASD
  | FUNCTION
  | NUMPAD
  deriving DecidableEq

/-- A state assigning to every `Mask` member its current backing list
(the lists are mutable in Python and `Mask.__sub__` mutates them in place). -/
abbrev MaskState := MaskId → List String

/-- The backing lists of the `Mask` members as defined in the class body. -/
def initMaskState : MaskState
  | MaskId.ALL => allKeys
  | MaskId.WASD => wasdKeys
  | MaskId.FUNCTION => functionKeys
  | MaskId.NUMPAD => numpadKeys

/-- `Mask.__sub__` with explicit member state.  `out = self.value` binds the
member's own list object without copying, and `out.remove(key)` mutates it, so
after the call the subtracted member `a` is backed by the result list.  When
`other is self` the loop iterates over the list it is mutating
(`maskSubSelf`); otherwise the iteration source is the unchanged list of `b`
(`maskSub`).  The trailing `Mask(out)` performs an enum value lookup; it finds
`a` itself (whose backing list *is* `out`), so it returns member `a` and the
value of the returned mask is exactly `out`. -/
def maskSubOp (s : MaskState) (a b : MaskId) : List String × MaskState :=
  let out := if a = b then maskSubSelf (s a) else maskSub (s a) (s b)
  (out, fun m => if m = a then out else s m)

/-! ## Gradient (src/backend/utils.py, classes `GradientKeyPoint`, `Gradient`) -/

/-- `GradientKeyPoint`: a `(color, t)` interpolation anchor. -/
structure GradKeyPoint where
  color : Color
  t : ℚ
  deriving DecidableEq

/-- The `while` loop of `Gradient.get_color`:

```
i = 1
prev_point = self.key_points[0]
next_point = self.key_points[1]
while t <= self.key_points[-1].t:
    if prev_point.t <= t <= next_point.t:
        break
    i += 1
    prev_point = next_point
    next_point = self.key_points[i]
```

`self.key_points[i]` raises `IndexError` once `i` reaches `len(key_points)`.
The `fuel` argument bounds the iteration count: every iteration increases `i`
by one and the loop aborts with `IndexError` as soon as `i + 1` is out of
range, so `kps.length` units of fuel always suffice when the loop is entered
through `gradientGetColor` (which starts at `i = 1`); the fuel-exhausted
branch is unreachable there. -/
def getColorLoop (kps : List GradKeyPoint) (t : ℚ) :
    Nat → Nat → GradKeyPoint → GradKeyPoint → Except PyErr (GradKeyPoint × GradKeyPoint)
  | 0, _, _, _ => .error .indexError
  | fuel + 1, i, prev, nxt =>
    if t ≤ (kps.getLastD ⟨⟨0, 0, 0⟩, 0⟩).t then
      if prev.t ≤ t ∧ t ≤ nxt.t then .ok (prev, nxt)
      else
        match kps.get? (i + 1) with
        | some q => getColorLoop kps t fuel (i + 1) nxt q
        | none => .error .indexError
    else .ok (prev, nxt)

/-- `Gradient.get_color(t)`.  The constructor asserts `len(key_points) > 1`
(shorter lists are rejected eagerly, embedded as `AssertionError` here).
After the loop, `interp_t = (t - prev.t) / (next.t - prev.t)` and the result
is `Color.interpolate(prev.color, next.color, interp_t)` (RGB branch). -/
def gradientGetColor (kps : List GradKeyPoint) (t : ℚ) : Except PyErr Color :=
  match kps with
  | kp0 :: kp1 :: _ =>
    match getColorLoop kps t kps.length 1 kp0 kp1 with
    | .ok (prev, nxt) =>
      .ok (Color.interpolate prev.color nxt.color ((t - prev.t) / (nxt.t - prev.t)))
    | .error e => .error e
  | _ => .error .assertionError

/-! ## Packet (src/keyboards/hid/hidinterfacing.py, class `Packet`) -/

/-- The sixteen lowercase hexadecimal digits, in value order. -/
def hexDigitsLower : List Char :=
  ['0', '1', '2', '3', '4', '5', '6', '7']
    ++ ['8', '9', 'a', 'b', 'c', 'd', 'e', 'f']

/-- The value of one hexadecimal digit (upper or lower case), if any. -/
def hexDigitValue (c : Char) : Option Nat :=
  if '0' ≤ c ∧ c ≤ '9' then some (c.toNat - 48)
  else if 'a' ≤ c ∧ c ≤ 'f' then some (c.toNat - 97 + 10)
  else if 'A' ≤ c ∧ c ≤ 'F' then some (c.toNat - 65 + 10)
  else none

/-- `Py_ISSPACE`: the six ASCII whitespace characters (space, TAB, LF, VT,
FF, CR) that `bytearray.fromhex` skips between bytes. -/
def isPySpace (c : Char) : Bool :=
  c == ' ' || c == '\t' || c == '\n' || c == Char.ofNat 11 || c == Char.ofNat 12 || c == '\r'

/-- `bytearray.fromhex`: decodes two hexadecimal digits per byte, skipping
ASCII whitespace *between* bytes (CPython skips whitespace only at the start
of a pair); a non-hex character — including whitespace splitting the two
digits of one byte — or a dangling digit raises `ValueError`.  A trailing
lone character is whitespace (skipped, end of input reached) or a dangling
digit / bad character (`ValueError`). -/
def fromhex : List Char → Except PyErr (List Nat)
  | [] => .ok []
  | [c] => if isPySpace c then .ok [] else .error .valueError
  | c :: c2 :: rest =>
    if isPySpace c then fromhex (c2 :: rest)
    else
      match hexDigitValue c, hexDigitValue c2 with
      | some v1, some v2 =>
        match fromhex rest with
        | .ok bs => .ok ((16 * v1 + v2) :: bs)
        | .error e => .error e
      | _, _ => .error .valueError

/-- The lowercase hexadecimal digit of a value below 16. -/
def toHexDigit (n : Nat) : Char := hexDigitsLower.getD n '0'

/-- One byte rendered as two lowercase hexadecimal digits. -/
def byteHex (b : Nat) : List Char := [toHexDigit (b / 16), toHexDigit (b % 16)]

/-- `bytearray.hex()`: every byte as two lowercase hexadecimal digits. -/
def bytesHex (bs : List Nat) : List Char := (bs.map byteHex).flatten

/-- `Packet`: direction flag, payload bytes (`self.data`), report id.
`Packet.__eq__` compares all three fields, so equality is structural. -/
structure Packet where
  outbound : Bool
  data : List Nat
  report_id : Nat
  deriving DecidableEq

/-- `Packet.__eq__` on two packets: `o.outbound == self.outbound and
o.data == self.data and o.report_id == self.report_id`. -/
def packetEq (self o : Packet) : Bool :=
  (o.outbound == self.outbound) && (o.data == self.data) && (o.report_id == self.report_id)

/-- `Packet.build_packet(direction, data_string)`:
`for_sending = (direction == "O")`; `assert len(data_string) % 2 == 0`
(`AssertionError` otherwise); `data = bytearray.fromhex(data_string)`;
`report_id = data[0]` (`IndexError` on an empty decode); the payload is
`data[1:]`.  `direction` is a one-character string in every call site, so it
is embedded as a `Char`. -/
def buildPacket (direction : Char) (dataString : List Char) : Except PyErr Packet :=
  if dataString.length % 2 = 0 then
    match fromhex dataString with
    | .error e => .error e
    | .ok [] => .error .indexError
    | .ok (b0 :: rest) => .ok ⟨direction == 'O', rest, b0⟩
  else .error .assertionError

/-- `Packet.__str__`: `"O"`/`"I"`, a space, then `self.data.hex()` — the hex
encoding of the *payload only* (the report id byte is not re-prepended). -/
def packetStr (p : Packet) : List Char :=
  (if p.outbound then ['O'] else ['I']) ++ [' '] ++ bytesHex p.data

/-- `PacketStream._setup_packets_from_file`, over the file's lines (each line
as produced by Python file iteration, i.e. including its trailing newline):

```
for line in file:
    if line != "":
        direction = line[0]
        if direction in ("I", "O"):
            data_string = line[2:-1]
            packets.append(Packet.build_packet(direction, data_string))
```

`line[2:-1]` is `drop 2` followed by `dropLast`.  Any exception raised by
`build_packet` propagates and aborts the whole load. -/
def setupPacketsFromLines : List (List Char) → Except PyErr (List Packet)
  | [] => .ok []
  | line :: rest =>
    if line = [] then setupPacketsFromLines rest
    else
      if line.headD ' ' = 'I' ∨ line.headD ' ' = 'O' then
        match buildPacket (line.headD ' ') ((line.drop 2).dropLast) with
        | .error e => .error e
        | .ok p =>
          match setupPacketsFromLines rest with
          | .ok ps => .ok (p :: ps)
          | .error e => .error e
      else setupPacketsFromLines rest

/-! ## PacketSender (src/keyboards/hid/hidinterfacing.py) -/

/-- `PacketSender._handle_packet`.  The transport is abstracted by the value
`send` returned for this packet (`bytes_written`) and the bytes `recv`
returned (`returned_data`).  Outbound:
`await self.handler.send(packet.data, packet.report_id) - 1 == len(packet.data)`.
Inbound: `packet == Packet(False, returned_data[1:], returned_data[0])`
(`returned_data[0]` raises `IndexError` on an empty read). -/
def handlePacket (sendResult : Int) (recvData : List Nat) (p : Packet) : Except PyErr Bool :=
  if p.outbound then .ok (sendResult - 1 == (p.data.length : Int))
  else
    match recvData with
    | [] => .error .indexError
    | r0 :: rest => .ok (packetEq p ⟨false, rest, r0⟩)

/-- The loop of `PacketSender.execute_packet_stream`: handles the packets in
stream order, incrementing `successes`/`failures` according to the result of
`_handle_packet`.  `i` is the position of the packet in the stream; the
transport oracles `sendResult`/`recvData` are indexed by it. -/
def executeLoop (sendResult : Nat → Int) (recvData : Nat → List Nat) :
    List Packet → Nat → Nat → Nat → Except PyErr (Nat × Nat)
  | [], _, s, f => .ok (s, f)
  | p :: rest, i, s, f =>
    match handlePacket (sendResult i) (recvData i) p with
    | .error e => .error e
    | .ok true => executeLoop sendResult recvData rest (i + 1) (s + 1) f
    | .ok false => executeLoop sendResult recvData rest (i + 1) s (f + 1)

/-- `PacketSender.execute_packet_stream`: returns `(successes, failures)`. -/
def executePacketStream (sendResult : Nat → Int) (recvData : Nat → List Nat)
    (packets : List Packet) : Except PyErr (Nat × Nat) :=
  executeLoop sendResult recvData packets 0 0 0

/-- The success criterion of one packet, as a predicate on the packet and the
transport oracles: used to state what `execute_packet_stream` counts. -/
def packetSuccess (sendResult : Int) (recvData : List Nat) (p : Packet) : Bool :=
  if p.outbound then sendResult - 1 == (p.data.length : Int)
  else packetEq p ⟨false, recvData.tail, recvData.headD 0⟩

/-! ## KeyColorManager encoding (src/keyboards/ducky.py, `packets_to_send`) -/

/-- `KeyData` from src/keyboards/rgbkeyboard.py. -/
structure KeyData where
  color : Color
  packet_number : Nat
  offset : Nat

/-- `data_arrays[p][o] = v` on a list of byte buffers. -/
def setCell (arrays : List (List ℤ)) (p o : Nat) (v : ℤ) : List (List ℤ) :=
  arrays.set p ((arrays.getD p []).set o v)

/-- Reads `data_arrays[p][o]`. -/
def getCell (arrays : List (List ℤ)) (p o : Nat) : ℤ := (arrays.getD p []).getD o 0

/-- One iteration of the inner write loop of `packets_to_send`:

```
packet = key.packet_number
if offset >= 64:
    offset -= 60
    packet += 1
data_arrays[packet][offset] = color_byte
```
-/
def writeColorByte (arrays : List (List ℤ)) (packetNumber offset : Nat) (colorByte : ℤ) :
    List (List ℤ) :=
  if 64 ≤ offset then setCell arrays (packetNumber + 1) (offset - 60) colorByte
  else setCell arrays packetNumber offset colorByte

/-- The per-key body of the "Apply key data" loop of `packets_to_send`:
`offsets = [key.offset + x for x in range(3)]` zipped with the key's color
components `(r, g, b)`, each written through `writeColorByte`. -/
def applyKeyColors (arrays : List (List ℤ)) (key : KeyData) : List (List ℤ) :=
  writeColorByte
    (writeColorByte
      (writeColorByte arrays key.packet_number key.offset key.color.r)
      key.packet_number (key.offset + 1) key.color.g)
    key.packet_number (key.offset + 2) key.color.b

/-- The whole "Apply key data" loop over the keys of the manager. -/
def applyAllKeys (arrays : List (List ℤ)) (keys : List KeyData) : List (List ℤ) :=
  keys.foldl applyKeyColors arrays

/-! ## ReactiveFunction (src/lighting/colorfunctions.py) -/

/-- The scalar of `ReactiveFunction.get`:

```
if self.on:
    scalar = 1
elif cur_time - self.start_time <= self.decay:
    scalar = scale_map(cur_time - self.start_time, 0, self.decay, 1, 0)
else:
    scalar = 0
```
-/
def reactiveScalar (isOn : Bool) (decay start_time cur_time : ℚ) : ℚ :=
  if isOn then 1
  else if cur_time - start_time ≤ decay then scale_map (cur_time - start_time) 0 decay 1 0
  else 0

/-- `ReactiveFunction.get`: `self.lower_function(*args, **kwargs) * scalar`,
with the lower function's color abstracted as the value `lower` it returns. -/
def reactiveGet (isOn : Bool) (decay start_time : ℚ) (lower : Color) (cur_time : ℚ) : Color :=
  Color.mulScalar lower (reactiveScalar isOn decay start_time cur_time)

/-! ## Hook removal (src/keyboards/rgbkeyboard.py) -/

/-- Python's in-place subtraction `a -= b` for `a` of type `list` and `b` of
type `tuple`: CPython first looks for `list.__isub__`, then `list.__sub__`,
then `tuple.__rsub__`; none of the three exists, so the statement raises
`TypeError` and `a` is left untouched.  The three `Option` slots embed the
presence or absence of those methods. -/
def pyInPlaceSub {α β : Type} (isubSlot subSlot rsubSlot : Option (α → β → α))
    (a : α) (b : β) : Except PyErr α :=
  match isubSlot with
  | some f => .ok (f a b)
  | none =>
    match subSlot with
    | some f => .ok (f a b)
    | none =>
      match rsubSlot with
      | some f => .ok (f a b)
      | none => .error .typeError

/-- `RGBKeyboard._remove_hooks`: `self._hooks_list -= hooks`, where
`self._hooks_list` is a `list` and `hooks` a `tuple` — all three method slots
are absent. -/
def removeHooks {α : Type} (hooks_list : List α) (hooks : List α) : Except PyErr (List α) :=
  pyInPlaceSub none none none hooks_list hooks

/-- The hook-removal part of `RGBKeyboard.remove_layer`: when the removed
scheme is a `HookingScheme` (or a `CombiningScheme` with a non-empty hook
list) it calls `_remove_hooks(...)` with a non-empty tuple; otherwise the
hooks list is returned unchanged. -/
def removeLayerHooks {α : Type} (hooks_list : List α) (schemeRegisteredHooks : Bool)
    (schemeHooks : List α) : Except PyErr (List α) :=
  if schemeRegisteredHooks then removeHooks hooks_list schemeHooks
  else .ok hooks_list

/-! ## Theorems -/

/-- **C4.** Every observable `Color` value has each of its `r`, `g`, `b`
channels within `[0, 255]`: for all integer inputs, construction and every
mutating or arithmetic operation (`set_color_values`, add, subtract, scalar
multiply, `scale`, invert/negate, `interpolate`) re-clamps each channel into
`[0, 255]`. -/
theorem color_operations_clamped (r g b n : ℤ) (c o : Color) (s t : ℚ) :
    (Color.build r g b).inRange ∧ (Color.clamp c).inRange
    ∧ (c.setColorValues r g b).inRange
    ∧ (c.add o).inRange ∧ (c.addInt n).inRange ∧ (c.sub o).inRange ∧ (c.subInt n).inRange
    ∧ (c.mulScalar s).inRange ∧ (c.scale s).inRange ∧ c.neg.inRange
    ∧ (Color.interpolate c o t).inRange := by
  have hcl : ∀ x : Color, (Color.clamp x).inRange := by
    intro x
    simp only [Color.clamp, Color.inRange]
    omega
  exact ⟨hcl _, hcl _, hcl _, hcl _, hcl _, hcl _, hcl _, hcl _, hcl _, hcl _, hcl _⟩

/-- **C9.** `_remove_hooks` applies `-=` between a `list` and a `tuple`, an
unsupported operand pairing, so any call with a non-empty hook tuple (and in
particular `remove_layer` on a layer that registered hooks) raises
`TypeError`; no hooks are ever removed from the callback list. -/
theorem removeHooks_type_error {α : Type} (hooks_list hooks : List α) (_hne : hooks ≠ []) :
    removeHooks hooks_list hooks = .error PyErr.typeError
    ∧ removeLayerHooks hooks_list true hooks = .error PyErr.typeError
    ∧ ∀ l : List α, removeHooks hooks_list hooks ≠ .ok l := by
  refine ⟨rfl, rfl, ?_⟩
  intro l h
  simp [removeHooks, pyInPlaceSub] at h

/-- Witness for `removeHooks_type_error` at a concrete callback list. -/
theorem removeHooks_type_error_witness :
    ([2] : List Nat) ≠ []
    ∧ (removeHooks ([0, 1] : List Nat) [2] = .error PyErr.typeError
      ∧ removeLayerHooks ([0, 1] : List Nat) true [2] = .error PyErr.typeError
      ∧ ∀ l : List Nat, removeHooks ([0, 1] : List Nat) [2] ≠ .ok l) :=
  ⟨by decide, removeHooks_type_error [0, 1] [2] (by decide)⟩

/-- **C1, counterexample.** Serialization is *not* the inverse of parsing:
`Packet.build_packet("O", "0102")` serializes to `"O 02"` — the report-id
byte is not re-prepended to the payload before hex-encoding. -/
theorem packet_serialize_roundtrip_cex :
    buildPacket 'O' ['0', '1', '0', '2'] = .ok ⟨true, [2], 1⟩
    ∧ packetStr ⟨true, [2], 1⟩ = ['O', ' ', '0', '2']
    ∧ packetStr ⟨true, [2], 1⟩ ≠ ['O', ' ', '0', '1', '0', '2']
    ∧ bytesHex [2] ≠ ['0', '1', '0', '2'] := by decide

/-- **C7, counterexample.** A malformed qualifying traffic line is *not*
silently skipped: an odd-length data string fails `build_packet`'s assertion
and a non-hex data string raises `ValueError`, aborting the load. -/
theorem traffic_malformed_raises_cex :
    setupPacketsFromLines [['O', ' ', '1', '2', '3', '\n']] = .error PyErr.assertionError
    ∧ setupPacketsFromLines [['O', ' ', 'z', 'z', '\n']] = .error PyErr.valueError := by
  decide

/-- **C5, counterexample.** Subtracting a mask from itself does *not* yield
the empty mask: `Mask.WASD - Mask.WASD` iterates over the very list it is
mutating, skips every other element, and leaves `["A", "D"]` — which still
contains the element `"A"` of the right-hand operand. -/
theorem mask_sub_self_not_empty_cex :
    maskSubSelf wasdKeys = ["A", "D"]
    ∧ maskSubSelf wasdKeys ≠ []
    ∧ "A" ∈ maskSubSelf wasdKeys ∧ "A" ∈ wasdKeys := by decide

/-- **C8.** `Mask.__sub__` binds the left operand's backing list without
copying it, so `Mask.ALL - Mask.WASD` removes the matched keys from the
member `Mask.ALL` itself: afterwards `Mask.ALL` no longer contains `"W"`,
`"A"`, `"S"`, `"D"` (and the returned mask is backed by that same list). -/
theorem mask_sub_mutates_left_operand :
    ("W" ∈ initMaskState MaskId.ALL ∧ "A" ∈ initMaskState MaskId.ALL
      ∧ "S" ∈ initMaskState MaskId.ALL ∧ "D" ∈ initMaskState MaskId.ALL)
    ∧ ("W" ∉ (maskSubOp initMaskState MaskId.ALL MaskId.WASD).2 MaskId.ALL
      ∧ "A" ∉ (maskSubOp initMaskState MaskId.ALL MaskId.WASD).2 MaskId.ALL
      ∧ "S" ∉ (maskSubOp initMaskState MaskId.ALL MaskId.WASD).2 MaskId.ALL
      ∧ "D" ∉ (maskSubOp initMaskState MaskId.ALL MaskId.WASD).2 MaskId.ALL)
    ∧ (maskSubOp initMaskState MaskId.ALL MaskId.WASD).1
        = (maskSubOp initMaskState MaskId.ALL MaskId.WASD).2 MaskId.ALL := by decide

/-- **C6.** For a `ReactiveFunction` with decay time `d > 0`, `get` at time
`t` returns the lower function's color multiplied by a scalar `s`: `s = 1`
while the tracked key is on; after a release at `t0`, `s = (d - (t - t0))/d`
for `0 ≤ t - t0 ≤ d` (so `1` at `t0`, exactly `1/2` at `t0 + d/2`, and
exactly `0` once `t - t0` reaches `d`), and `s = 0` for `t - t0 > d`. -/
theorem reactiveGet_decay_formula (decay start_time cur_time : ℚ) (lower : Color)
    (hd : 0 < decay) :
    reactiveGet true decay start_time lower cur_time = Color.mulScalar lower 1
    ∧ (0 ≤ cur_time - start_time → cur_time - start_time ≤ decay →
        reactiveGet false decay start_time lower cur_time
          = Color.mulScalar lower ((decay - (cur_time - start_time)) / decay))
    ∧ (cur_time - start_time = 0 →
        reactiveGet false decay start_time lower cur_time = Color.mulScalar lower 1)
    ∧ (cur_time - start_time = decay / 2 →
        reactiveGet false decay start_time lower cur_time = Color.mulScalar lower (1 / 2))
    ∧ (cur_time - start_time = decay →
        reactiveGet false decay start_time lower cur_time = Color.mulScalar lower 0)
    ∧ (decay < cur_time - start_time →
        reactiveGet false decay start_time lower cur_time = Color.mulScalar lower 0) := by
  have hd0 : decay ≠ 0 := ne_of_gt hd
  have hsm : ∀ x : ℚ, scale_map x 0 decay 1 0 = (decay - x) / decay := by
    intro x
    unfold scale_map
    field_simp
    ring
  have hscal : ∀ h1 : cur_time - start_time ≤ decay,
      reactiveScalar false decay start_time cur_time
        = (decay - (cur_time - start_time)) / decay := by
    intro h1
    unfold reactiveScalar
    rw [if_neg (by simp), if_pos h1, hsm]
  refine ⟨rfl, ?_, ?_, ?_, ?_, ?_⟩
  · intro _ h1
    unfold reactiveGet
    rw [hscal h1]
  · intro h
    unfold reactiveGet
    rw [hscal (by rw [h]; exact le_of_lt hd), h]
    congr 1
    field_simp
  · intro h
    unfold reactiveGet
    rw [hscal (by rw [h]; linarith), h]
    congr 1
    field_simp
    ring
  · intro h
    unfold reactiveGet
    rw [hscal (by rw [h]), h]
    congr 1
    simp
  · intro h
    unfold reactiveGet reactiveScalar
    rw [if_neg (by simp), if_neg (by simpa using not_le.mpr h)]

/-- Witness for `reactiveGet_decay_formula` at `decay = 1/4`. -/
theorem reactiveGet_decay_formula_witness :
    (0 : ℚ) < 1 / 4
    ∧ (reactiveGet true (1 / 4) 0 ⟨100, 50, 25⟩ (1 / 8) = Color.mulScalar ⟨100, 50, 25⟩ 1
      ∧ (0 ≤ (1 / 8 : ℚ) - 0 → (1 / 8 : ℚ) - 0 ≤ 1 / 4 →
          reactiveGet false (1 / 4) 0 ⟨100, 50, 25⟩ (1 / 8)
            = Color.mulScalar ⟨100, 50, 25⟩ ((1 / 4 - ((1 / 8 : ℚ) - 0)) / (1 / 4)))
      ∧ ((1 / 8 : ℚ) - 0 = 0 →
          reactiveGet false (1 / 4) 0 ⟨100, 50, 25⟩ (1 / 8) = Color.mulScalar ⟨100, 50, 25⟩ 1)
      ∧ ((1 / 8 : ℚ) - 0 = (1 / 4) / 2 →
          reactiveGet false (1 / 4) 0 ⟨100, 50, 25⟩ (1 / 8)
            = Color.mulScalar ⟨100, 50, 25⟩ (1 / 2))
      ∧ ((1 / 8 : ℚ) - 0 = 1 / 4 →
          reactiveGet false (1 / 4) 0 ⟨100, 50, 25⟩ (1 / 8) = Color.mulScalar ⟨100, 50, 25⟩ 0)
      ∧ ((1 / 4 : ℚ) < 1 / 8 - 0 →
          reactiveGet false (1 / 4) 0 ⟨100, 50, 25⟩ (1 / 8)
            = Color.mulScalar ⟨100, 50, 25⟩ 0)) :=
  ⟨by norm_num, reactiveGet_decay_formula (1 / 4) 0 (1 / 8) ⟨100, 50, 25⟩ (by norm_num)⟩

/-- Every lowercase hexadecimal digit round-trips through `hexDigitValue` and
`toHexDigit`. -/
theorem hexDigit_spec : ∀ c ∈ hexDigitsLower,
    hexDigitValue c = some ((hexDigitValue c).getD 0)
    ∧ (hexDigitValue c).getD 0 < 16
    ∧ toHexDigit ((hexDigitValue c).getD 0) = c
    ∧ isPySpace c = false := by
  intro c hc
  simp only [hexDigitsLower, List.mem_append, List.mem_cons, List.not_mem_nil, or_false] at hc
  rcases hc with hc | hc <;>
    rcases hc with rfl | rfl | rfl | rfl | rfl | rfl | rfl | rfl <;>
      exact ⟨by decide, by decide, by decide, by decide⟩

/-- `bytearray.fromhex` followed by `bytearray.hex()` reproduces an
even-length lowercase hex string. -/
theorem fromhex_roundtrip : ∀ (h : List Char), h.length % 2 = 0 →
    (∀ c ∈ h, c ∈ hexDigitsLower) → ∃ bs, fromhex h = .ok bs ∧ bytesHex bs = h
  | [], _, _ => ⟨[], rfl, rfl⟩
  | [_], he, _ => by simp at he
  | c1 :: c2 :: rest, he, hh => by
    obtain ⟨h1s, h1lt, h1d, h1sp⟩ := hexDigit_spec c1 (hh c1 (by simp))
    obtain ⟨h2s, h2lt, h2d, h2sp⟩ := hexDigit_spec c2 (hh c2 (by simp))
    have he2 : rest.length % 2 = 0 := by
      simp [List.length_cons] at he
      omega
    obtain ⟨bs, hbs, hrt⟩ := fromhex_roundtrip rest he2 (fun c hc => hh c (by simp [hc]))
    have hdiv : (16 * (hexDigitValue c1).getD 0 + (hexDigitValue c2).getD 0) / 16
        = (hexDigitValue c1).getD 0 := by omega
    have hmod : (16 * (hexDigitValue c1).getD 0 + (hexDigitValue c2).getD 0) % 16
        = (hexDigitValue c2).getD 0 := by omega
    refine ⟨(16 * (hexDigitValue c1).getD 0 + (hexDigitValue c2).getD 0) :: bs, ?_, ?_⟩
    · show (if isPySpace c1 then fromhex (c2 :: rest)
          else
            match hexDigitValue c1, hexDigitValue c2 with
            | some v1, some v2 =>
              match fromhex rest with
              | Except.ok bs2 => Except.ok ((16 * v1 + v2) :: bs2)
              | Except.error e => Except.error e
            | _, _ => Except.error PyErr.valueError)
        = Except.ok ((16 * (hexDigitValue c1).getD 0 + (hexDigitValue c2).getD 0) :: bs)
      rw [if_neg (by simp [h1sp]), h1s, h2s, hbs]
      rfl
    · have hcons :
          bytesHex ((16 * (hexDigitValue c1).getD 0 + (hexDigitValue c2).getD 0) :: bs)
            = byteHex (16 * (hexDigitValue c1).getD 0 + (hexDigitValue c2).getD 0)
              ++ bytesHex bs := by
        simp [bytesHex]
      rw [hcons, hrt]
      simp [byteHex, hdiv, hmod, h1d, h2d]

/-- **C1, amended.** Serializing `Packet.build_packet("O", h)` yields `"O "`
followed by `h` *without its first two characters*: `__str__` hex-encodes the
payload only and does not re-prepend the report-id byte, so serialization is
not the inverse of parsing. -/
theorem packet_serialize_payload_only (h : List Char) (heven : h.length % 2 = 0)
    (hlen : 2 ≤ h.length) (hhex : ∀ c ∈ h, c ∈ hexDigitsLower) :
    (buildPacket 'O' h).map packetStr = .ok (['O', ' '] ++ h.drop 2) := by
  obtain ⟨bs, hbs, hrt⟩ := fromhex_roundtrip h heven hhex
  match bs, hbs, hrt with
  | [], hbs, hrt =>
    rw [← hrt] at hlen
    simp [bytesHex] at hlen
  | b0 :: bs2, hbs, hrt =>
    have hb : buildPacket 'O' h = .ok ⟨true, bs2, b0⟩ := by
      simp [buildPacket, heven, hbs]
    have hdrop : bytesHex bs2 = h.drop 2 := by
      have h2 : byteHex b0 ++ bytesHex bs2 = h := by simpa [bytesHex] using hrt
      rw [← h2]
      simp [byteHex]
    rw [hb]
    simp [Except.map, packetStr, hdrop]

/-- Witness for `packet_serialize_payload_only` at `h = "0102"`. -/
theorem packet_serialize_payload_only_witness :
    (['0', '1', '0', '2'].length % 2 = 0) ∧ (2 ≤ ['0', '1', '0', '2'].length)
    ∧ (∀ c ∈ ['0', '1', '0', '2'], c ∈ hexDigitsLower)
    ∧ (buildPacket 'O' ['0', '1', '0', '2']).map packetStr
        = .ok (['O', ' '] ++ ['0', '1', '0', '2'].drop 2) :=
  ⟨by decide, by decide, by decide,
    packet_serialize_payload_only ['0', '1', '0', '2'] (by decide) (by decide) (by decide)⟩

/-- `getLastD` of a non-empty list is an element of it. -/
theorem getLastD_mem : ∀ (a : GradKeyPoint) (l : List GradKeyPoint) (d : GradKeyPoint),
    (a :: l).getLastD d ∈ a :: l
  | a, [], d => by simp [List.getLastD_cons]
  | a, b :: rest, d => by
    rw [List.getLastD_cons]
    exact List.mem_cons_of_mem a (getLastD_mem b rest a)

/-- If `t` is strictly below every key point, the bracket-scanning loop of
`Gradient.get_color` never finds an enclosing segment and runs off the end of
the key-point list. -/
theorem getColorLoop_below (kps : List GradKeyPoint) (t : ℚ)
    (hlast : kps.getLastD ⟨⟨0, 0, 0⟩, 0⟩ ∈ kps)
    (ht : ∀ x ∈ kps, t < x.t) :
    ∀ (fuel i : Nat) (prev nxt : GradKeyPoint), prev ∈ kps → kps.get? i = some nxt →
      getColorLoop kps t fuel i prev nxt = .error PyErr.indexError := by
  intro fuel
  induction fuel with
  | zero => intro i prev nxt _ _; rfl
  | succ fuel ih =>
    intro i prev nxt hprev hnxt
    have hA : t ≤ (kps.getLastD ⟨⟨0, 0, 0⟩, 0⟩).t := le_of_lt (ht _ hlast)
    have hB : ¬(prev.t ≤ t ∧ t ≤ nxt.t) := fun hc => absurd hc.1 (not_le.mpr (ht prev hprev))
    show (if t ≤ (kps.getLastD ⟨⟨0, 0, 0⟩, 0⟩).t then
        if prev.t ≤ t ∧ t ≤ nxt.t then Except.ok (prev, nxt)
        else
          match kps.get? (i + 1) with
          | some q => getColorLoop kps t fuel (i + 1) nxt q
          | none => Except.error PyErr.indexError
      else Except.ok (prev, nxt)) = Except.error PyErr.indexError
    rw [if_pos hA, if_neg hB]
    cases hq : kps.get? (i + 1) with
    | some q => exact ih (i + 1) nxt q (List.get?_mem hnxt) hq
    | none => rfl

/-- **C10.** `Gradient.get_color` is partial below the gradient span: for a
sorted key-point list and any `t` strictly below the first key point, the
bracket-scanning loop never breaks, advances past the last key point, and
raises `IndexError` instead of returning a `Color`. -/
theorem gradientGetColor_below_span_index_error (kp0 kp1 : GradKeyPoint)
    (rest : List GradKeyPoint) (t : ℚ)
    (hsorted : (kp0 :: kp1 :: rest).Pairwise (fun p q => p.t ≤ q.t))
    (ht : t < kp0.t) :
    gradientGetColor (kp0 :: kp1 :: rest) t = .error PyErr.indexError := by
  have hall : ∀ x ∈ kp0 :: kp1 :: rest, t < x.t := by
    intro x hx
    rcases List.mem_cons.mp hx with rfl | hx2
    · exact ht
    · exact lt_of_lt_of_le ht ((List.pairwise_cons.mp hsorted).1 x hx2)
  have hloop := getColorLoop_below (kp0 :: kp1 :: rest) t
    (getLastD_mem kp0 (kp1 :: rest) ⟨⟨0, 0, 0⟩, 0⟩) hall
    (kp0 :: kp1 :: rest).length 1 kp0 kp1 (by simp) (by rfl)
  simp only [gradientGetColor, hloop]

/-- Witness for `gradientGetColor_below_span_index_error` on a two-point
gradient sampled at `t = -1`. -/
theorem gradientGetColor_below_span_witness :
    ((⟨⟨255, 0, 0⟩, 0⟩ : GradKeyPoint) :: (⟨⟨0, 0, 255⟩, 1⟩ : GradKeyPoint)
        :: []).Pairwise (fun p q => p.t ≤ q.t)
    ∧ ((-1 : ℚ) < (0 : ℚ))
    ∧ gradientGetColor [⟨⟨255, 0, 0⟩, 0⟩, ⟨⟨0, 0, 255⟩, 1⟩] (-1) = .error PyErr.indexError :=
  ⟨by decide, by decide,
    gradientGetColor_below_span_index_error ⟨⟨255, 0, 0⟩, 0⟩ ⟨⟨0, 0, 255⟩, 1⟩ [] (-1)
      (by decide) (by decide)⟩

/-- A Boolean predicate and its negation split the length of a list. -/
theorem countP_add_countP_not (σ : Nat × Packet → Bool) (l : List (Nat × Packet)) :
    l.countP σ + l.countP (fun x => !σ x) = l.length := by
  induction l with
  | nil => simp
  | cons x xs ih =>
    rw [List.countP_cons, List.countP_cons]
    cases hx : σ x <;> simp [hx] <;> omega

/-- `_handle_packet` returns exactly the `packetSuccess` verdict whenever an
inbound packet receives a non-empty frame. -/
theorem handlePacket_eq_success (sendResult : Int) (recvData : List Nat) (p : Packet)
    (hrecv : p.outbound = false → recvData ≠ []) :
    handlePacket sendResult recvData p = .ok (packetSuccess sendResult recvData p) := by
  unfold handlePacket packetSuccess
  cases hout : p.outbound with
  | true => simp
  | false =>
    cases hr : recvData with
    | nil => exact absurd hr (hrecv hout)
    | cons r0 rs => simp

/-- The loop of `execute_packet_stream` adds, to the starting accumulators,
the number of packets that satisfy (resp. fail) `packetSuccess`, judging each
packet at its own stream position. -/
theorem executeLoop_counts (send : Nat → Int) (recv : Nat → List Nat) :
    ∀ (l : List Packet) (i s f : Nat),
      (∀ ip ∈ l.enumFrom i, ip.2.outbound = false → recv ip.1 ≠ []) →
      executeLoop send recv l i s f
        = .ok (s + (l.enumFrom i).countP (fun ip => packetSuccess (send ip.1) (recv ip.1) ip.2),
               f + (l.enumFrom i).countP (fun ip => !packetSuccess (send ip.1) (recv ip.1) ip.2))
  | [], i, s, f, _ => by simp [executeLoop, List.enumFrom]
  | p :: rest, i, s, f, hrecv => by
    have hmem : (i, p) ∈ (p :: rest).enumFrom i := by
      rw [List.enumFrom_cons]
      exact List.mem_cons_self _ _
    have hstep : handlePacket (send i) (recv i) p = .ok (packetSuccess (send i) (recv i) p) :=
      handlePacket_eq_success (send i) (recv i) p (hrecv (i, p) hmem)
    have hrest : ∀ ip ∈ rest.enumFrom (i + 1), ip.2.outbound = false → recv ip.1 ≠ [] := by
      intro ip hip
      exact hrecv ip (by rw [List.enumFrom_cons]; exact List.mem_cons_of_mem _ hip)
    have ihyp := fun s2 f2 => executeLoop_counts send recv rest (i + 1) s2 f2 hrest
    cases hσ : packetSuccess (send i) (recv i) p with
    | true =>
      have hone : executeLoop send recv (p :: rest) i s f
          = executeLoop send recv rest (i + 1) (s + 1) f := by
        rw [hσ] at hstep
        show (match handlePacket (send i) (recv i) p with
          | Except.error e => Except.error e
          | Except.ok true => executeLoop send recv rest (i + 1) (s + 1) f
          | Except.ok false => executeLoop send recv rest (i + 1) s (f + 1))
          = executeLoop send recv rest (i + 1) (s + 1) f
        rw [hstep]
      rw [hone, ihyp (s + 1) f, List.enumFrom_cons, List.countP_cons, List.countP_cons]
      simp [hσ]
      omega
    | false =>
      have hone : executeLoop send recv (p :: rest) i s f
          = executeLoop send recv rest (i + 1) s (f + 1) := by
        rw [hσ] at hstep
        show (match handlePacket (send i) (recv i) p with
          | Except.error e => Except.error e
          | Except.ok true => executeLoop send recv rest (i + 1) (s + 1) f
          | Except.ok false => executeLoop send recv rest (i + 1) s (f + 1))
          = executeLoop send recv rest (i + 1) s (f + 1)
        rw [hstep]
      rw [hone, ihyp s (f + 1), List.enumFrom_cons, List.countP_cons, List.countP_cons]
      simp [hσ]
      omega

/-- **C2.** `execute_packet_stream` handles the packets in stream order and
returns `(successes, failures)` where every packet is counted in exactly one
of the two: an outbound packet is a success iff `send`'s return value minus 1
equals its payload length, and an inbound packet is a success iff the
`Packet` formed from the received bytes (first byte as report id, remainder
as payload, direction inbound) is structurally equal to the expected packet.
The transport is abstracted by the per-position oracles `send` and `recv`;
inbound reads are assumed non-empty (an empty read would raise `IndexError`
rather than count the packet). -/
theorem executePacketStream_success_counts (send : Nat → Int) (recv : Nat → List Nat)
    (ps : List Packet)
    (hrecv : ∀ ip ∈ ps.enum, ip.2.outbound = false → recv ip.1 ≠ []) :
    executePacketStream send recv ps
      = .ok (ps.enum.countP (fun ip => packetSuccess (send ip.1) (recv ip.1) ip.2),
             ps.enum.countP (fun ip => !packetSuccess (send ip.1) (recv ip.1) ip.2))
    ∧ ps.enum.countP (fun ip => packetSuccess (send ip.1) (recv ip.1) ip.2)
      + ps.enum.countP (fun ip => !packetSuccess (send ip.1) (recv ip.1) ip.2)
      = ps.length := by
  constructor
  · have hloop := executeLoop_counts send recv ps 0 0 0 (by simpa [List.enum] using hrecv)
    simpa [executePacketStream, List.enum] using hloop
  · rw [countP_add_countP_not]
    exact List.enum_length

/-- Witness for `executePacketStream_success_counts` on a two-packet stream
(one outbound success, one inbound success). -/
theorem executePacketStream_success_counts_witness :
    (∀ ip ∈ ([⟨true, [5, 6], 1⟩, ⟨false, [2, 3], 1⟩] : List Packet).enum,
        ip.2.outbound = false → (fun _ => [1, 2, 3]) ip.1 ≠ ([] : List Nat))
    ∧ (executePacketStream (fun _ => 3) (fun _ => [1, 2, 3])
          [⟨true, [5, 6], 1⟩, ⟨false, [2, 3], 1⟩]
        = .ok ((([⟨true, [5, 6], 1⟩, ⟨false, [2, 3], 1⟩] : List Packet).enum.countP
                  (fun ip => packetSuccess ((fun _ => 3) ip.1) ((fun _ => [1, 2, 3]) ip.1) ip.2),
                (([⟨true, [5, 6], 1⟩, ⟨false, [2, 3], 1⟩] : List Packet).enum.countP
                  (fun ip => !packetSuccess ((fun _ => 3) ip.1) ((fun _ => [1, 2, 3]) ip.1) ip.2))))
      ∧ ([⟨true, [5, 6], 1⟩, ⟨false, [2, 3], 1⟩] : List Packet).enum.countP
            (fun ip => packetSuccess ((fun _ => 3) ip.1) ((fun _ => [1, 2, 3]) ip.1) ip.2)
          + ([⟨true, [5, 6], 1⟩, ⟨false, [2, 3], 1⟩] : List Packet).enum.countP
            (fun ip => !packetSuccess ((fun _ => 3) ip.1) ((fun _ => [1, 2, 3]) ip.1) ip.2)
          = ([⟨true, [5, 6], 1⟩, ⟨false, [2, 3], 1⟩] : List Packet).length) :=
  ⟨by decide,
    executePacketStream_success_counts (fun _ => 3) (fun _ => [1, 2, 3])
      [⟨true, [5, 6], 1⟩, ⟨false, [2, 3], 1⟩] (by decide)⟩

/-- `setCell` preserves the number of packet buffers. -/
theorem setCell_length (arrays : List (List ℤ)) (p o : Nat) (v : ℤ) :
    (setCell arrays p o v).length = arrays.length := by
  unfold setCell
  exact List.length_set arrays p _

/-- The packet-level read of `setCell` at the written packet index. -/
theorem setCell_row_self (arrays : List (List ℤ)) (p o : Nat) (v : ℤ) :
    (setCell arrays p o v).getD p [] = (arrays.getD p []).set o v := by
  unfold setCell
  rw [List.getD_eq_getElem?_getD, List.getElem?_set_self']
  cases harr : arrays[p]? with
  | none => simp [List.getD_eq_getElem?_getD, harr]
  | some row => simp [List.getD_eq_getElem?_getD, harr]

/-- The packet-level read of `setCell` at any other packet index. -/
theorem setCell_row_ne (arrays : List (List ℤ)) (p o : Nat) (v : ℤ) (q : Nat)
    (hpq : p ≠ q) :
    (setCell arrays p o v).getD q [] = arrays.getD q [] := by
  unfold setCell
  rw [List.getD_eq_getElem?_getD, List.getElem?_set_ne hpq, ← List.getD_eq_getElem?_getD]

/-- `setCell` preserves the length of every buffer. -/
theorem setCell_rowlen (arrays : List (List ℤ)) (p o : Nat) (v : ℤ) (q : Nat) :
    ((setCell arrays p o v).getD q []).length = (arrays.getD q []).length := by
  rcases eq_or_ne p q with rfl | hpq
  · rw [setCell_row_self]
    exact List.length_set ..
  · rw [setCell_row_ne arrays p o v q hpq]

/-- Reading back the cell just written by `setCell`. -/
theorem getCell_setCell_self (arrays : List (List ℤ)) (p o : Nat) (v : ℤ)
    (ho : o < (arrays.getD p []).length) :
    getCell (setCell arrays p o v) p o = v := by
  unfold getCell
  rw [setCell_row_self, List.getD_eq_getElem?_getD, List.getElem?_set_self ho]
  rfl

/-- Reading any other cell after `setCell` is unchanged. -/
theorem getCell_setCell_ne (arrays : List (List ℤ)) (p o p2 o2 : Nat) (v : ℤ)
    (hne : p ≠ p2 ∨ o ≠ o2) :
    getCell (setCell arrays p o v) p2 o2 = getCell arrays p2 o2 := by
  unfold getCell
  rcases eq_or_ne p p2 with rfl | hpq
  · have ho : o ≠ o2 := hne.resolve_left (fun h => h rfl)
    rw [setCell_row_self, List.getD_eq_getElem?_getD, List.getElem?_set_ne ho,
      ← List.getD_eq_getElem?_getD]
  · rw [setCell_row_ne arrays p o v p2 hpq]

/-- `writeColorByte` preserves the number of packet buffers. -/
theorem writeColorByte_length (arrays : List (List ℤ)) (pn off : Nat) (v : ℤ) :
    (writeColorByte arrays pn off v).length = arrays.length := by
  unfold writeColorByte
  split <;> exact setCell_length ..

/-- `writeColorByte` preserves the length of every buffer. -/
theorem writeColorByte_rowlen (arrays : List (List ℤ)) (pn off : Nat) (v : ℤ) (q : Nat) :
    ((writeColorByte arrays pn off v).getD q []).length = (arrays.getD q []).length := by
  unfold writeColorByte
  split <;> exact setCell_rowlen ..

/-- Reading back a non-spilling `writeColorByte`. -/
theorem getCell_writeColorByte_self (arrays : List (List ℤ)) (pn off : Nat) (v : ℤ)
    (h : ¬ 64 ≤ off) (ho : off < (arrays.getD pn []).length) :
    getCell (writeColorByte arrays pn off v) pn off = v := by
  unfold writeColorByte
  rw [if_neg h]
  exact getCell_setCell_self arrays pn off v ho

/-- Reading back a spilling `writeColorByte`: the byte lands in buffer
`pn + 1` at `off - 60`. -/
theorem getCell_writeColorByte_spill (arrays : List (List ℤ)) (pn off : Nat) (v : ℤ)
    (h : 64 ≤ off) (ho : off - 60 < (arrays.getD (pn + 1) []).length) :
    getCell (writeColorByte arrays pn off v) (pn + 1) (off - 60) = v := by
  unfold writeColorByte
  rw [if_pos h]
  exact getCell_setCell_self arrays (pn + 1) (off - 60) v ho

/-- `writeColorByte` leaves every cell other than its (possibly spilled)
target unchanged. -/
theorem getCell_writeColorByte_ne (arrays : List (List ℤ)) (pn off : Nat) (v : ℤ)
    (p2 o2 : Nat) (hspill : 64 ≤ off → pn + 1 ≠ p2 ∨ off - 60 ≠ o2)
    (hdirect : ¬ 64 ≤ off → pn ≠ p2 ∨ off ≠ o2) :
    getCell (writeColorByte arrays pn off v) p2 o2 = getCell arrays p2 o2 := by
  unfold writeColorByte
  split
  · exact getCell_setCell_ne arrays (pn + 1) (off - 60) p2 o2 v (by tauto)
  · exact getCell_setCell_ne arrays pn off p2 o2 v (by tauto)

/-- **C3.** In `packets_to_send`, each key's three color bytes are written at
consecutive offsets `offset`, `offset+1`, `offset+2` of its packet buffer,
and any byte whose computed offset is at least 64 is instead written into
packet `packet_number + 1` at that offset minus 60; in particular, a key
whose offset is 62 writes its third color byte into packet
`packet_number + 1` at offset 4. -/
theorem applyKeyColors_offsets (arrays : List (List ℤ)) (key : KeyData)
    (hrows : ∀ row ∈ arrays, row.length = 64)
    (hp : key.packet_number + 1 < arrays.length)
    (ho : key.offset < 64) :
    (getCell (applyKeyColors arrays key) key.packet_number key.offset = key.color.r)
    ∧ (key.offset + 1 < 64 →
        getCell (applyKeyColors arrays key) key.packet_number (key.offset + 1) = key.color.g)
    ∧ (64 ≤ key.offset + 1 →
        getCell (applyKeyColors arrays key) (key.packet_number + 1) (key.offset + 1 - 60)
          = key.color.g)
    ∧ (key.offset + 2 < 64 →
        getCell (applyKeyColors arrays key) key.packet_number (key.offset + 2) = key.color.b)
    ∧ (64 ≤ key.offset + 2 →
        getCell (applyKeyColors arrays key) (key.packet_number + 1) (key.offset + 2 - 60)
          = key.color.b)
    ∧ (key.offset = 62 →
        getCell (applyKeyColors arrays key) (key.packet_number + 1) 4 = key.color.b) := by
  obtain ⟨c, p, o⟩ := key
  simp only [applyKeyColors] at *
  have hrowlen : ∀ q, q < arrays.length → (arrays.getD q []).length = 64 := by
    intro q hq
    rw [List.getD_eq_getElem?_getD, List.getElem?_eq_getElem hq]
    exact hrows _ (List.getElem_mem hq)
  have hL1 : (writeColorByte arrays p o c.r).length = arrays.length :=
    writeColorByte_length ..
  have hR1 : ∀ q, ((writeColorByte arrays p o c.r).getD q []).length
      = (arrays.getD q []).length := fun q => writeColorByte_rowlen ..
  have hL2 : (writeColorByte (writeColorByte arrays p o c.r) p (o + 1) c.g).length
      = arrays.length := by rw [writeColorByte_length, hL1]
  have hR2 : ∀ q,
      ((writeColorByte (writeColorByte arrays p o c.r) p (o + 1) c.g).getD q []).length
        = (arrays.getD q []).length := by
    intro q
    rw [writeColorByte_rowlen, hR1]
  refine ⟨?_, ?_, ?_, ?_, ?_, ?_⟩
  · -- first byte, never spills (o < 64)
    rw [getCell_writeColorByte_ne _ p (o + 2) c.b p o
        (fun _ => Or.inl (by omega)) (fun _ => Or.inr (by omega)),
      getCell_writeColorByte_ne _ p (o + 1) c.g p o
        (fun h => Or.inl (by omega)) (fun _ => Or.inr (by omega))]
    exact getCell_writeColorByte_self arrays p o c.r (by omega)
      (by rw [hrowlen p (by omega)]; omega)
  · intro h1
    rw [getCell_writeColorByte_ne _ p (o + 2) c.b p (o + 1)
        (fun _ => Or.inl (by omega)) (fun _ => Or.inr (by omega))]
    exact getCell_writeColorByte_self _ p (o + 1) c.g (by omega)
      (by rw [hR1, hrowlen p (by omega)]; omega)
  · intro h1
    rw [getCell_writeColorByte_ne _ p (o + 2) c.b (p + 1) (o + 1 - 60)
        (fun _ => Or.inr (by omega)) (fun h => absurd (show 64 ≤ o + 2 by omega) h)]
    exact getCell_writeColorByte_spill _ p (o + 1) c.g h1
      (by rw [hR1, hrowlen (p + 1) (by omega)]; omega)
  · intro h2
    exact getCell_writeColorByte_self _ p (o + 2) c.b (by omega)
      (by rw [hR2, hrowlen p (by omega)]; omega)
  · intro h2
    exact getCell_writeColorByte_spill _ p (o + 2) c.b h2
      (by rw [hR2, hrowlen (p + 1) (by omega)]; omega)
  · intro h62
    subst h62
    have hb := getCell_writeColorByte_spill
      (writeColorByte (writeColorByte arrays p 62 c.r) p (62 + 1) c.g) p (62 + 2) c.b
      (by omega) (by rw [hR2, hrowlen (p + 1) (by omega)]; omega)
    simpa using hb

/-- Witness for `applyKeyColors_offsets`: a key at packet 0, offset 62 with
color `(10, 20, 30)` writes 10 at `(0, 62)`, 20 at `(0, 63)` and spills 30
into packet 1 at offset 4. -/
theorem applyKeyColors_offsets_witness :
    (∀ row ∈ List.replicate 8 (List.replicate 64 (0 : ℤ)), row.length = 64)
    ∧ (0 + 1 < (List.replicate 8 (List.replicate 64 (0 : ℤ))).length)
    ∧ (62 < 64)
    ∧ getCell (applyKeyColors (List.replicate 8 (List.replicate 64 (0 : ℤ)))
        ⟨⟨10, 20, 30⟩, 0, 62⟩) 0 62 = 10
    ∧ getCell (applyKeyColors (List.replicate 8 (List.replicate 64 (0 : ℤ)))
        ⟨⟨10, 20, 30⟩, 0, 62⟩) 0 63 = 20
    ∧ getCell (applyKeyColors (List.replicate 8 (List.replicate 64 (0 : ℤ)))
        ⟨⟨10, 20, 30⟩, 0, 62⟩) 1 4 = 30 :=
  ⟨by decide, by decide, by decide,
    (applyKeyColors_offsets (List.replicate 8 (List.replicate 64 (0 : ℤ)))
      ⟨⟨10, 20, 30⟩, 0, 62⟩ (by decide) (by decide) (by decide)).1,
    (applyKeyColors_offsets (List.replicate 8 (List.replicate 64 (0 : ℤ)))
      ⟨⟨10, 20, 30⟩, 0, 62⟩ (by decide) (by decide) (by decide)).2.1 (by decide),
    (applyKeyColors_offsets (List.replicate 8 (List.replicate 64 (0 : ℤ)))
      ⟨⟨10, 20, 30⟩, 0, 62⟩ (by decide) (by decide) (by decide)).2.2.2.2.2 rfl⟩

/-- One step of the `Mask.__sub__` loop only removes elements. -/
theorem maskSubStep_subset (out : List String) (key : String) : maskSubStep out key ⊆ out := by
  unfold maskSubStep pyListRemove
  split
  · exact List.erase_subset key out
  · exact fun x hx => hx

/-- One step of the `Mask.__sub__` loop preserves duplicate-freedom. -/
theorem maskSubStep_nodup (out : List String) (key : String) (h : out.Nodup) :
    (maskSubStep out key).Nodup := by
  unfold maskSubStep pyListRemove
  split
  · exact h.erase key
  · exact h

/-- After processing `key`, a duplicate-free list no longer contains it. -/
theorem not_mem_maskSubStep_self (out : List String) (key : String) (h : out.Nodup) :
    key ∉ maskSubStep out key := by
  unfold maskSubStep pyListRemove
  split
  · intro hmem
    exact absurd rfl ((List.Nodup.mem_erase_iff h).mp hmem).1
  · intro hmem
    contradiction

/-- `Mask.__sub__` (distinct operands) only removes elements from the left. -/
theorem maskSub_subset : ∀ (b a : List String), maskSub a b ⊆ a := by
  intro b
  induction b with
  | nil => exact fun a x hx => hx
  | cons k b ih =>
    intro a x hx
    have hx2 : x ∈ maskSub (maskSubStep a k) b := by
      simpa [maskSub, List.foldl_cons] using hx
    exact maskSubStep_subset a k (ih (maskSubStep a k) hx2)

/-- For a duplicate-free left operand, `Mask.__sub__` with a distinct right
operand removes every occurrence of the right operand's elements. -/
theorem maskSub_no_mem : ∀ (b a : List String), a.Nodup → ∀ k ∈ b, k ∉ maskSub a b := by
  intro b
  induction b with
  | nil =>
    intro a _ k hk
    simp at hk
  | cons k0 b ih =>
    intro a ha k hk
    have hstep : maskSub a (k0 :: b) = maskSub (maskSubStep a k0) b := by
      simp [maskSub, List.foldl_cons]
    rcases List.mem_cons.mp hk with rfl | hkb
    · rw [hstep]
      intro hmem
      exact not_mem_maskSubStep_self a k ha (maskSub_subset b (maskSubStep a k) hmem)
    · rw [hstep]
      exact ih (maskSubStep a k0) (maskSubStep_nodup a k0 ha) k hkb

/-- Erasing the element at position `i` of a duplicate-free list removes
exactly that position. -/
theorem erase_getD_of_nodup : ∀ (l : List String) (i : Nat), i < l.length → l.Nodup →
    l.erase (l.getD i "") = l.take i ++ l.drop (i + 1)
  | [], i, hi, _ => by simp at hi
  | x :: xs, 0, _, _ => by simp [List.erase_cons_head]
  | x :: xs, i + 1, hi, hn => by
    have hi2 : i < xs.length := by simpa using hi
    have hmem : xs.getD i "" ∈ xs := by
      rw [List.getD_eq_getElem?_getD, List.getElem?_eq_getElem hi2]
      exact List.getElem_mem hi2
    have hx : x ≠ xs.getD i "" := by
      rintro rfl
      exact (List.nodup_cons.mp hn).1 hmem
    rw [List.getD_cons_succ, List.erase_cons_tail (by simpa using hx),
      erase_getD_of_nodup xs i hi2 (List.nodup_cons.mp hn).2]
    simp [List.take_succ_cons, List.drop_succ_cons]

/-- Splitting off the head of a list matches `oddIndexed` of the cons. -/
theorem oddIndexed_cons_eq (key : String) (B : List String) :
    B.take 1 ++ oddIndexed (B.drop 1) = oddIndexed (key :: B) := by
  cases B with
  | nil => simp [oddIndexed]
  | cons y B2 => simp [oddIndexed]

/-- The iterate-while-removing loop of self-subtraction keeps exactly the
elements at odd positions of the part not yet passed. -/
theorem maskSubSelfLoop_eq : ∀ (fuel : Nat) (out : List String) (i : Nat),
    out.Nodup → out.length - i ≤ fuel →
    maskSubSelfLoop fuel out i = out.take i ++ oddIndexed (out.drop i)
  | 0, out, i, _, hfuel => by
    have hle : out.length ≤ i := by omega
    show out = out.take i ++ oddIndexed (out.drop i)
    rw [List.take_of_length_le hle, List.drop_eq_nil_of_le hle]
    simp [oddIndexed]
  | fuel + 1, out, i, hn, hfuel => by
    show (if i < out.length then
        maskSubSelfLoop fuel
          (if out.getD i "" ∈ out then pyListRemove out (out.getD i "") else out) (i + 1)
      else out) = out.take i ++ oddIndexed (out.drop i)
    by_cases hi : i < out.length
    · rw [if_pos hi]
      have hmem : out.getD i "" ∈ out := by
        rw [List.getD_eq_getElem?_getD, List.getElem?_eq_getElem hi]
        exact List.getElem_mem hi
      rw [if_pos hmem]
      have herase : pyListRemove out (out.getD i "") = out.take i ++ out.drop (i + 1) :=
        erase_getD_of_nodup out i hi hn
      rw [herase]
      have hsub : (out.take i ++ out.drop (i + 1)).Sublist out := by
        conv_rhs => rw [← List.take_append_drop i out]
        apply List.Sublist.append_left
        have hdd : out.drop (i + 1) = List.drop 1 (List.drop i out) := by
          rw [List.drop_drop]
        rw [hdd]
        exact List.drop_sublist 1 (List.drop i out)
      have hn2 : (out.take i ++ out.drop (i + 1)).Nodup := hn.sublist hsub
      have htl : (out.take i).length = i := by
        rw [List.length_take]
        omega
      have hlen : (out.take i ++ out.drop (i + 1)).length - (i + 1) ≤ fuel := by
        rw [List.length_append, htl, List.length_drop]
        omega
      have hdropi : out.drop i = out.getD i "" :: out.drop (i + 1) := by
        rw [List.drop_eq_getElem_cons hi, List.getD_eq_getElem out "" hi]
      rw [maskSubSelfLoop_eq fuel (out.take i ++ out.drop (i + 1)) (i + 1) hn2 hlen,
        show i + 1 = (out.take i).length + 1 from by omega,
        List.take_append, List.drop_append, htl, List.append_assoc,
        oddIndexed_cons_eq (out.getD i ""), ← hdropi]
    · rw [if_neg hi]
      have hle : out.length ≤ i := by omega
      rw [List.take_of_length_le hle, List.drop_eq_nil_of_le hle]
      simp [oddIndexed]

/-- Self-subtraction of a duplicate-free mask keeps the odd positions. -/
theorem maskSubSelf_eq_oddIndexed (a : List String) (ha : a.Nodup) :
    maskSubSelf a = oddIndexed a := by
  unfold maskSubSelf
  rw [maskSubSelfLoop_eq a.length a 0 ha (by omega)]
  simp

/-- **C5, amended.** For a duplicate-free mask `A` and a mask `B` backed by a
*distinct* list object, `A - B` contains no element of `B`.  Subtracting a
mask from *itself*, however, iterates over the list while removing from it:
it keeps exactly the elements at odd positions, not the empty mask (e.g.
`WASD - WASD` leaves `["A", "D"]`). -/
theorem mask_sub_amended :
    (∀ (a b : List String), a.Nodup → ∀ k ∈ b, k ∉ maskSub a b)
    ∧ (∀ a : List String, a.Nodup → maskSubSelf a = oddIndexed a) :=
  ⟨fun a b ha k hk => maskSub_no_mem b a ha k hk, maskSubSelf_eq_oddIndexed⟩

/-- Witness for `mask_sub_amended` on the `WASD` mask. -/
theorem mask_sub_amended_witness :
    wasdKeys.Nodup
    ∧ ("W" ∈ (["W", "X"] : List String))
    ∧ "W" ∉ maskSub wasdKeys ["W", "X"]
    ∧ maskSubSelf wasdKeys = oddIndexed wasdKeys :=
  ⟨by decide, by decide,
    mask_sub_amended.1 wasdKeys ["W", "X"] (by decide) "W" (by decide),
    mask_sub_amended.2 wasdKeys (by decide)⟩

/-- A string containing a character that is neither a hex digit nor ASCII
whitespace makes `bytearray.fromhex` raise `ValueError`, whatever else the
string contains: the pair scan examines every non-whitespace character. -/
theorem fromhex_bad : ∀ (h : List Char),
    (∃ c ∈ h, hexDigitValue c = none ∧ isPySpace c = false) →
    fromhex h = .error PyErr.valueError
  | [], hbad => by simp at hbad
  | [c], hbad => by
    show (if isPySpace c then Except.ok ([] : List Nat) else Except.error PyErr.valueError)
      = Except.error PyErr.valueError
    cases hsp : isPySpace c with
    | true =>
      exfalso
      rcases hbad with ⟨cx, hcx, hcn, hcs⟩
      rcases List.mem_cons.mp hcx with rfl | hmem
      · rw [hsp] at hcs
        simp at hcs
      · simp at hmem
    | false => rw [if_neg (by simp)]
  | c :: c2 :: rest, hbad => by
    show (if isPySpace c then fromhex (c2 :: rest)
        else
          match hexDigitValue c, hexDigitValue c2 with
          | some v1, some v2 =>
            match fromhex rest with
            | Except.ok bs2 => Except.ok ((16 * v1 + v2) :: bs2)
            | Except.error e => Except.error e
          | _, _ => Except.error PyErr.valueError)
      = Except.error PyErr.valueError
    cases hsp : isPySpace c with
    | true =>
      rw [if_pos rfl]
      refine fromhex_bad (c2 :: rest) ?_
      rcases hbad with ⟨cx, hcx, hcn, hcs⟩
      rcases List.mem_cons.mp hcx with rfl | hmem
      · rw [hsp] at hcs
        simp at hcs
      · exact ⟨cx, hmem, hcn, hcs⟩
    | false =>
      rw [if_neg (by simp)]
      cases h1 : hexDigitValue c with
      | none => rfl
      | some v1 =>
        cases h2 : hexDigitValue c2 with
        | none => rfl
        | some v2 =>
          have hbad2 : ∃ cx ∈ rest, hexDigitValue cx = none ∧ isPySpace cx = false := by
            rcases hbad with ⟨cx, hcx, hcn, hcs⟩
            rcases List.mem_cons.mp hcx with rfl | hmem
            · rw [h1] at hcn
              simp at hcn
            · rcases List.mem_cons.mp hmem with rfl | hmem2
              · rw [h2] at hcn
                simp at hcn
              · exact ⟨cx, hmem2, hcn, hcs⟩
          rw [fromhex_bad rest hbad2]

/-- **C7, amended.** When a `PacketStream` is loaded from a traffic file,
blank lines and any line whose first character is not `"I"`/`"O"` are
skipped, and each qualifying well-formed line is parsed as one `Packet`
(`bytearray.fromhex` skips ASCII whitespace between bytes, so data strings
containing spaces still parse); but a malformed qualifying line is *not*
silently skipped: odd-length data fails `build_packet`'s assertion
(`AssertionError`) and data containing a character that is neither a hex
digit nor ASCII whitespace raises `ValueError`, aborting the load. -/
theorem traffic_line_handling :
    (∀ rest : List (List Char),
      setupPacketsFromLines ([] :: rest) = setupPacketsFromLines rest)
    ∧ (∀ (line : List Char) (rest : List (List Char)),
        ¬(line.headD ' ' = 'I' ∨ line.headD ' ' = 'O') →
        setupPacketsFromLines (line :: rest) = setupPacketsFromLines rest)
    ∧ (∀ (line : List Char) (rest : List (List Char)) (p : Packet) (ps : List Packet),
        line ≠ [] → (line.headD ' ' = 'I' ∨ line.headD ' ' = 'O') →
        buildPacket (line.headD ' ') ((line.drop 2).dropLast) = .ok p →
        setupPacketsFromLines rest = .ok ps →
        setupPacketsFromLines (line :: rest) = .ok (p :: ps))
    ∧ (∀ (line : List Char) (rest : List (List Char)),
        line ≠ [] → (line.headD ' ' = 'I' ∨ line.headD ' ' = 'O') →
        ((line.drop 2).dropLast).length % 2 = 1 →
        setupPacketsFromLines (line :: rest) = .error PyErr.assertionError)
    ∧ (∀ (line : List Char) (rest : List (List Char)),
        line ≠ [] → (line.headD ' ' = 'I' ∨ line.headD ' ' = 'O') →
        ((line.drop 2).dropLast).length % 2 = 0 →
        (∃ c ∈ (line.drop 2).dropLast, hexDigitValue c = none ∧ isPySpace c = false) →
        setupPacketsFromLines (line :: rest) = .error PyErr.valueError)
    ∧ setupPacketsFromLines [['O', ' ', '0', '1', '0', '2', ' ', ' ', '\n']]
        = .ok [⟨true, [2], 1⟩] := by
  refine ⟨?_, ?_, ?_, ?_, ?_, ?_⟩
  · intro rest
    simp [setupPacketsFromLines]
  · intro line rest hno
    by_cases hl : line = []
    · subst hl
      simp [setupPacketsFromLines]
    · simp only [setupPacketsFromLines]
      rw [if_neg hl, if_neg hno]
  · intro line rest p ps hne hio hbp hps
    simp only [setupPacketsFromLines]
    rw [if_neg hne, if_pos hio, hbp, hps]
  · intro line rest hne hio hodd
    have hbp : buildPacket (line.headD ' ') ((line.drop 2).dropLast)
        = .error PyErr.assertionError := by
      unfold buildPacket
      rw [if_neg (by omega)]
    simp only [setupPacketsFromLines]
    rw [if_neg hne, if_pos hio, hbp]
  · intro line rest hne hio heven hbad
    have hbp : buildPacket (line.headD ' ') ((line.drop 2).dropLast)
        = .error PyErr.valueError := by
      unfold buildPacket
      rw [if_pos heven, fromhex_bad ((line.drop 2).dropLast) hbad]
    simp only [setupPacketsFromLines]
    rw [if_neg hne, if_pos hio, hbp]
  · decide

/-- Witness for `traffic_line_handling`: one well-formed line parses to one
packet, and a line starting with another character is skipped. -/
theorem traffic_line_handling_witness :
    (['O', ' ', '0', '1', '\n'] : List Char) ≠ []
    ∧ ((['O', ' ', '0', '1', '\n'] : List Char).headD ' ' = 'I'
        ∨ (['O', ' ', '0', '1', '\n'] : List Char).headD ' ' = 'O')
    ∧ buildPacket ((['O', ' ', '0', '1', '\n'] : List Char).headD ' ')
        (((['O', ' ', '0', '1', '\n'] : List Char).drop 2).dropLast) = .ok ⟨true, [], 1⟩
    ∧ setupPacketsFromLines [['O', ' ', '0', '1', '\n']] = .ok [⟨true, [], 1⟩]
    ∧ ¬((['#', 'c'] : List Char).headD ' ' = 'I' ∨ (['#', 'c'] : List Char).headD ' ' = 'O')
    ∧ setupPacketsFromLines [['#', 'c']] = setupPacketsFromLines [] :=
  ⟨by decide, by decide, by decide,
    traffic_line_handling.2.2.1 ['O', ' ', '0', '1', '\n'] [] ⟨true, [], 1⟩ []
      (by decide) (by decide) (by decide) rfl,
    by decide,
    traffic_line_handling.2.1 ['#', 'c'] [] (by decide)⟩

end DuckyLighting
